import Mathlib

/- Verification development for the Internshala bot suite: a shallow embedding of the
   conversation-extraction and session-state engine (the ChatManager module, src/auth.js,
   src/bot.js and src/stealth.js), with theorems settling the specification claims.
   JS Date values are modelled as milliseconds since the epoch (Int); randomness is
   modelled by explicit oracle functions; DOM pages are modelled as functions from a
   selector string to the list of matched elements. -/

namespace Internshala

/-- JS truthiness-based fallback for an optional string against a string default:
    both a missing value and the empty string (falsy in JS) fall through, mirroring
    the idiom a || b on string-valued attribute reads. -/
def jsOrStr (a : Option String) (b : String) : String :=
  match a with
  | some s => if s = "" then b else s
  | none => b

/-- JS truthiness-based fallback between two optional strings (a || b with empty-string
    values treated as falsy). -/
def jsOrOpt (a b : Option String) : Option String :=
  match a with
  | some s => if s = "" then b else some s
  | none => b

/-- Whether the first character list is a leading segment of the second. -/
def charsStartWith : List Char → List Char → Bool
  | [], _ => true
  | _ :: _, [] => false
  | a :: as, b :: bs => a == b && charsStartWith as bs

/-- Whether the pattern occurs contiguously somewhere in the character list. -/
def charsContain (pat : List Char) : List Char → Bool
  | [] => charsStartWith pat []
  | b :: bs => charsStartWith pat (b :: bs) || charsContain pat bs

/-- JS String.prototype.includes, as substring containment on the character lists. -/
def containsSubstr (s pat : String) : Bool :=
  charsContain pat.toList s.toList

/-- JS String.prototype.includes with a single-character argument. -/
def includesChar (s : String) (c : Char) : Bool :=
  s.toList.contains c

/-- JS String.prototype.trim: strip whitespace from both ends. -/
def jsTrim (s : String) : String :=
  ⟨((s.toList.dropWhile Char.isWhitespace).reverse.dropWhile Char.isWhitespace).reverse⟩

/-! ## StealthManager.humanType (src/stealth.js lines 223-251)

The typing loop walks the input text by index. At each index i, with the random draw
given here by the oracle, the branch guarded by Math.random() < 0.02 && i > 0 presses
Backspace, which removes the last character already entered in the focused field, and
then the loop types the current character text[i]. Only field content is modelled;
the randomized delays and thinking pauses never touch the field. -/

/-- One iteration of the humanType loop at index i: an optional Backspace (dropping the
    last character of the field) followed by typing the character c. -/
def humanTypeStep (mistake : Bool) (i : Nat) (buf : List Char) (c : Char) : List Char :=
  (if mistake && decide (0 < i) then buf.dropLast else buf) ++ [c]

/-- Final content of the focused field after StealthManager.humanType runs over text,
    with mistakeAt i the outcome of the Math.random() < 0.02 draw at index i. -/
def humanType (mistakeAt : Nat → Bool) (text : List Char) : List Char :=
  text.enum.foldl (fun buf p => humanTypeStep (mistakeAt p.1) p.1 buf p.2) []

/-! ## AuthManager.performLogin (src/auth.js lines 9-58)

The retry loop is modelled with the attempt outcomes abstracted into a function from
the 1-based attempt number to none (the attempt reached the success return) or
some msg (an error with message msg was thrown inside the try block). The structural
fuel argument encodes the while guard: fuel equals maxRetries minus the current value
of the attempt counter at every call, so fuel = 0 exactly when attempt < maxRetries
fails and the loop is left (the async function then resolves without error).
delayRequests collects the (min, max) arguments of the stealth.randomDelay call made
after each failed non-final attempt, where min = retryDelay * 2 ^ (attempt - 1). -/

inductive LoginResult where
  | success : LoginResult
  | failure : String → LoginResult
deriving DecidableEq, Repr

structure LoginRun where
  result : LoginResult
  attemptsMade : Nat
  delayRequests : List (Nat × Nat)
deriving DecidableEq, Repr

/-- The retry-exhaustion error message of performLogin (auth.js line 49). -/
def loginFailMsg (maxRetries : Nat) (msg : String) : String :=
  "Login failed after " ++ toString maxRetries ++ " attempts: " ++ msg

/-- The body of the performLogin while loop. attempt is the loop counter value at loop
    entry (incremented to a at the top of the body, as in the source). -/
def performLoginGo (outcomes : Nat → Option String) (maxRetries retryDelay : Nat) :
    (fuel attempt : Nat) → LoginRun
  | 0, attempt => { result := .success, attemptsMade := attempt, delayRequests := [] }
  | fuel+1, attempt =>
    let a := attempt + 1
    match outcomes a with
    | none => { result := .success, attemptsMade := a, delayRequests := [] }
    | some msg =>
      if a = maxRetries then
        { result := .failure (loginFailMsg maxRetries msg),
          attemptsMade := a, delayRequests := [] }
      else
        let d := retryDelay * 2 ^ (a - 1)
        let rest := performLoginGo outcomes maxRetries retryDelay fuel a
        { result := rest.result, attemptsMade := rest.attemptsMade,
          delayRequests := (d, d + 1000) :: rest.delayRequests }

/-- AuthManager.performLogin with the constructor constants maxRetries = 3 and
    retryDelay = 2000 (src/auth.js lines 4-7). -/
def performLogin (outcomes : Nat → Option String) : LoginRun :=
  performLoginGo outcomes 3 2000 3 0

/-! ## InternshalaBot.isLoggedIn and login (src/bot.js lines 80-133) -/

/-- The page state isLoggedIn inspects: the textContent of the first match of
    .error_content, .account_hold, .violation (none when no such element exists or its
    text is null), and whether a .dashboard-container, .user-profile, .student-dashboard
    element is present. -/
structure BotPage where
  accountIssueText : Option String
  dashboardPresent : Bool
deriving DecidableEq, Repr

/-- InternshalaBot.isLoggedIn (src/bot.js lines 115-133): when account-issue markup with
    text containing "put on hold" is found it logs an error and returns false; otherwise
    the result is the presence of a dashboard element. -/
def isLoggedIn (p : BotPage) : Bool :=
  match p.accountIssueText with
  | some t => if containsSubstr t "put on hold" then false else p.dashboardPresent
  | none => p.dashboardPresent

/-- InternshalaBot.login (src/bot.js lines 80-113): with stored cookies it first probes
    isLoggedIn on the dashboard page; when that returns false (which includes the
    account-on-hold case) it falls through to AuthManager.performLogin, whose body never
    inspects the account-on-hold markup, so the attempt outcomes are independent of it.
    Returns the login result together with the number of performLogin attempts made. -/
def botLogin (p : BotPage) (hasCookies : Bool) (outcomes : Nat → Option String) :
    LoginResult × Nat :=
  if hasCookies && isLoggedIn p then (.success, 0)
  else ((performLogin outcomes).result, (performLogin outcomes).attemptsMade)

/-! ## ChatManager (the unnamed chat module)

A rendered page is modelled as a function from a selector string to the list of
elements it matches. A matched element carries exactly the data the extraction code
reads from the DOM: class lists of the element and of its ancestor chain, text
content, the text of the nested child elements the code queries, and the attributes
it reads. -/

/-- The ordered candidate message selectors of the ChatManager constructor
    (chat module lines 5-27), most specific first. -/
def messageSelectors : List String :=
  [".message_container .message", ".message_inner", ".text-message",
   ".message_history_element", ".message_receiver", ".message_sender",
   ".chat_element .message", ".message-item", ".chat-message", ".message-bubble",
   ".conversation-message", ".msg-item", ".message", ".chat-msg", ".msg",
   ".message-row", ".chat-bubble", "[class*=\"message\"]", "[class*=\"msg\"]",
   "[class*=\"chat-\"]", ".message-content"]

/-- The data extractMessageData reads from one matched DOM element. Option fields are
    none when the corresponding child element or attribute is absent. -/
structure ChatElement where
  classes : List String
  ancestorClasses : List (List String)
  nestedTextChild : Option String
  textContent : String
  timeChildText : Option String
  dataTime : Option String
  timestampAttr : Option String
  senderChildText : Option String
  dataId : Option String
  domId : Option String
  className : String
deriving DecidableEq, Repr

/-- The four outgoing structural markers of extractMessageData (lines 245-249). -/
def ownMarkerClasses : List String :=
  ["own-message", "sent", "outgoing", "message_sender"]

/-- The isOwnMessage computation of extractMessageData (lines 245-249): the classList
    of the element contains one of the markers, or closest finds the marker on the
    element itself or an ancestor. No text content is consulted. -/
def isOwnMessage (el : ChatElement) : Bool :=
  ownMarkerClasses.any (fun m => el.classes.contains m)
  || (el.classes :: el.ancestorClasses).any
       (fun cs => ownMarkerClasses.any (fun m => cs.contains m))

/-- The timestamp source text of extractMessageData (lines 252-255): the trimmed text of
    the first matched time child, else the data-time attribute, else the timestamp
    attribute, with empty strings falsy as in the JS or-chain. -/
def timeTextOf (el : ChatElement) : Option String :=
  jsOrOpt (el.timeChildText.map jsTrim) (jsOrOpt el.dataTime el.timestampAttr)

/-- The timestamp resolution of extractMessageData (lines 257-284), with JS Dates as
    epoch milliseconds and isoParse modelling JS Date parsing of the kept string (none
    when new Date gives an invalid date). A present text is kept only when it contains
    both the characters T and Z and parses; every other present text, including
    relative forms such as "5 minutes ago", takes the fallback now minus idx minutes,
    exactly like a missing text. The helper parseTimestamp declared at lines 304-340
    sits after the return statement of the evaluate callback and is never invoked, so
    it contributes nothing here. -/
def resolveTimestamp (isoParse : String → Option Int) (now : Int)
    (timeText : Option String) (idx : Nat) : Int :=
  match timeText with
  | none => now - 60000 * (idx : Int)
  | some t =>
    if includesChar t 'T' && includesChar t 'Z' then
      match isoParse t with
      | some ms => ms
      | none => now - 60000 * (idx : Int)
    else now - 60000 * (idx : Int)

/-- The sender computation of extractMessageData (lines 287-288): the trimmed text of a
    sender-name, msg-sender or author child when truthy, else me or other according to
    isOwnMessage. -/
def senderOf (el : ChatElement) : String :=
  jsOrStr (el.senderChildText.map jsTrim)
    (if isOwnMessage el then "me" else "other")

/-- The id computation of extractMessageData (lines 291-293): data-id attribute, else
    the id attribute, else a synthesized msg_now_idx string. -/
def messageIdOf (el : ChatElement) (now : Int) (idx : Nat) : String :=
  jsOrStr el.dataId (jsOrStr el.domId
    ("msg_" ++ toString now ++ "_" ++ toString idx))

/-- One extracted chat message as built by extractMessageData, timestamp in epoch
    milliseconds. -/
structure Msg where
  id : String
  text : String
  sender : String
  timestamp : Int
  type : String
  element_class : String
deriving DecidableEq, Repr

/-- ChatManager.extractMessageData (lines 235-350) for one element at index idx: the
    text source is the first message-text, msg-text or text-content child, or the
    element itself when no such child exists; an element whose trimmed text is empty
    contributes nothing (none). -/
def extractMessageData (isoParse : String → Option Int) (now : Int)
    (el : ChatElement) (idx : Nat) : Option Msg :=
  let textSrc := match el.nestedTextChild with
    | some t => t
    | none => el.textContent
  let text := jsTrim textSrc
  if text = "" then none
  else some
    { id := messageIdOf el now idx
      text := text
      sender := senderOf el
      timestamp := resolveTimestamp isoParse now (timeTextOf el) idx
      type := if isOwnMessage el then "sent" else "received"
      element_class := el.className }

/-- The selector loop of extractMessages (lines 198-219): candidates are tried in
    order and the first one matching at least one element wins for the pass; the break
    after processing it means nothing from any later candidate is merged. -/
def firstMatching (q : String → List ChatElement) : List String → Option (List ChatElement)
  | [] => none
  | s :: rest => if (q s).isEmpty then firstMatching q rest else some (q s)

/-- The per-element processing of the winning candidate in extractMessages
    (lines 205-212): extract each element with its index and keep the truthy results. -/
def extractPass (isoParse : String → Option Int) (now : Int)
    (els : List ChatElement) : List Msg :=
  els.enum.filterMap (fun p => extractMessageData isoParse now p.2 p.1)

/-- The duplicate predicate of extractMessages (lines 226-229): identical text and
    timestamps less than 1000 ms apart. -/
def isDuplicate (a b : Msg) : Bool :=
  a.text == b.text && decide ((a.timestamp - b.timestamp).natAbs < 1000)

/-- The findIndex-based duplicate filter of extractMessages (lines 225-230): an entry
    is kept exactly when its index equals the index of the first entry duplicating it. -/
def dedupMessages (msgs : List Msg) : List Msg :=
  (msgs.enum.filter (fun p => msgs.findIdx (fun m => isDuplicate m p.2) == p.1)).map
    Prod.snd

/-- Insertion step of the stable sort: the element is placed before the first already
    placed element whose timestamp is greater than or equal, so elements with equal
    timestamps keep their original relative order. -/
def insertByTimestamp (x : Msg) : List Msg → List Msg
  | [] => [x]
  | y :: ys =>
    if y.timestamp < x.timestamp then y :: insertByTimestamp x ys else x :: y :: ys

/-- The sort of extractMessages (line 222): ascending by the numeric timestamp
    comparator. Array.prototype.sort is stable and a stable ascending sort has a unique
    result, here realized as a stable insertion sort. -/
def sortByTimestamp : List Msg → List Msg
  | [] => []
  | x :: xs => insertByTimestamp x (sortByTimestamp xs)

/-- ChatManager.extractMessages (lines 194-233): first matching candidate wins, then
    sort ascending by timestamp, then the duplicate filter. -/
def extractMessages (isoParse : String → Option Int) (now : Int)
    (q : String → List ChatElement) : List Msg :=
  let messages := match firstMatching q messageSelectors with
    | none => []
    | some els => extractPass isoParse now els
  dedupMessages (sortByTimestamp messages)

/-- ChatManager.getMessageCount (lines 177-192): the running maximum of the match-list
    lengths over all candidate selectors. -/
def getMessageCount (q : String → List ChatElement) : Nat :=
  messageSelectors.foldl
    (fun count s => if (q s).length > count then (q s).length else count) 0

/-! ## ChatManager.scrollToLoadHistory (lines 135-175)

counts k is the value getMessageCount returns at the loop iteration whose
scrollAttempt counter equals k, that is after k scrolls have been performed. The
structural fuel argument encodes the while guard: fuel equals
maxScrollAttempts - scrollAttempt at every call. The result is the number of loop
iterations entered, paired with whether the loop exited through the early break. -/

def scrollGo (counts : Nat → Nat) : (fuel : Nat) → (prev scrollAttempt : Nat) → Nat × Bool
  | 0, _, sa => (sa, false)
  | fuel+1, prev, sa =>
    let current := counts sa
    if current = prev ∧ 2 < sa then (sa + 1, true)
    else scrollGo counts fuel current (sa + 1)

/-- The scroll loop with its source constants: maxScrollAttempts = 10, the counters
    scrollAttempt and previousMessageCount starting at 0. -/
def scrollToLoadHistory (counts : Nat → Nat) : Nat × Bool :=
  scrollGo counts 10 0 0

/-! ## ChatManager.startLiveListener (lines 408-489)

The method has parameters page, conversationId, storage and isListeningCallback; the
chat module binds logger (imported) and the class. Its polling loop body awaits
stealth.randomDelay(1000, 2000) at the end of the try block, and its catch block logs
the error and awaits stealth.randomDelay(5000, 10000); the identifier stealth is not
among the bindings in scope, so either call throws a ReferenceError, and an exception
thrown inside the catch block escapes the loop. Identifier resolution is modelled
explicitly; the page operations of cycle n are abstracted as an Except value. -/

def jsRefError (x : String) : String :=
  "ReferenceError: " ++ x ++ " is not defined"

/-- Evaluating an identifier: ok when it is bound in the scope, otherwise a thrown
    ReferenceError. -/
def evalIdent (scope : List String) (x : String) : Except String Unit :=
  if x ∈ scope then .ok () else .error (jsRefError x)

/-- The module-level bindings of the chat module (line 1 and the class itself). -/
def chatModuleScope : List String := ["logger", "ChatManager"]

/-- The identifiers bound in the body of startLiveListener: the receiver, its four
    parameters, and the module-level bindings. stealth is not among them. -/
def startLiveListenerScope : List String :=
  ["this", "page", "conversationId", "storage", "isListeningCallback"] ++ chatModuleScope

/-- One iteration of the polling loop (lines 447-475): the try block runs the page
    operations of the cycle and then the stealth.randomDelay(1000, 2000) wait; on any
    error the catch block runs the stealth.randomDelay(5000, 10000) backoff, whose own
    exception, if any, escapes the iteration. -/
def liveListenerCycle (scope : List String) (pageOps : Except String Unit) :
    Except String Unit :=
  match pageOps.bind (fun _ => evalIdent scope "stealth") with
  | .ok _ => .ok ()
  | .error _ => evalIdent scope "stealth"

/-- How a run of the polling loop ends. -/
inductive ListenerOutcome where
  | cancelled : Nat → ListenerOutcome
  | crashed : Nat → String → ListenerOutcome
  | running : Nat → ListenerOutcome
deriving DecidableEq, Repr

/-- The while loop of startLiveListener: before cycle n the cancellation flag
    isListeningCallback is consulted; a cycle that ends in an uncaught exception
    terminates the loop with that error. fuel bounds the number of cycles observed
    (the source loop itself has no bound). -/
def liveListenerLoop (scope : List String) (listening : Nat → Bool)
    (pageOps : Nat → Except String Unit) : (fuel n : Nat) → ListenerOutcome
  | 0, n => .running n
  | fuel+1, n =>
    if listening n then
      match liveListenerCycle scope (pageOps n) with
      | .ok _ => liveListenerLoop scope listening pageOps fuel (n + 1)
      | .error e => .crashed n e
    else .cancelled n

/-! ## Spec-side relative-timestamp reading

The specification clause (b) for timestamps says a text matching the relative pattern
"N minutes/hours/days/weeks ago" resolves to the current instant minus N units. The
following definitions state that reading, clearly separated from the source-derived
resolveTimestamp above, so the two can be compared. -/

def splitWordsAux : List Char → List Char → List (List Char)
  | [], acc => [acc.reverse]
  | c :: cs, acc =>
    if c == ' ' then acc.reverse :: splitWordsAux cs []
    else splitWordsAux cs (c :: acc)

def splitWords (cs : List Char) : List (List Char) :=
  splitWordsAux cs []

def charDigit (c : Char) : Option Nat :=
  if '0' ≤ c ∧ c ≤ '9' then some (c.toNat - '0'.toNat) else none

def digitsValueAux : List Char → Nat → Option Nat
  | [], acc => some acc
  | c :: cs, acc =>
    match charDigit c with
    | some d => digitsValueAux cs (acc * 10 + d)
    | none => none

def digitsValue : List Char → Option Nat
  | [] => none
  | cs => digitsValueAux cs 0

def stripPlural (cs : List Char) : List Char :=
  if cs.getLast? = some 's' then cs.dropLast else cs

def specUnitMs (u : List Char) : Option Int :=
  if u = "minute".toList then some 60000
  else if u = "hour".toList then some 3600000
  else if u = "day".toList then some 86400000
  else if u = "week".toList then some 604800000
  else none

/-- The relative reading described by the spec: "N minutes/hours/days/weeks ago" (unit
    singular or plural) resolves to now minus N units, none when the text is not of
    that shape. Stated from the spec wording for comparison with resolveTimestamp. -/
def specRelativeResolve (now : Int) (t : String) : Option Int :=
  match splitWords t.toList with
  | [n, unit, w] =>
    if w = "ago".toList then
      match digitsValue n, specUnitMs (stripPlural unit) with
      | some v, some ms => some (now - ms * (v : Int))
      | _, _ => none
    else none
  | _ => none

/-! ## Claim theorems -/

/-- C9 (code bug): humanType does not always enter exactly the characters of the input
    text. When the 2 percent branch fires at index i > 0 it presses Backspace, deleting
    the previously typed correct character, and never retypes it, so the final field
    content is missing a character. On the input text "ab" with the draw firing at
    index 1, the field ends as "b", not "ab"; with the branch never firing the content
    does equal the input. -/
theorem humanType_drops_characters :
    humanType (fun i => i == 1) "ab".toList = "b".toList
    ∧ (∀ text : List Char, humanType (fun _ => false) text = text)
    ∧ "b".toList ≠ "ab".toList := by
  refine ⟨by decide, fun text => ?_, by decide⟩
  have key : ∀ (l : List (Nat × Char)) (acc : List Char),
      l.foldl (fun buf p => buf ++ [p.2]) acc = acc ++ l.map Prod.snd := by
    intro l
    induction l with
    | nil => intro acc; simp
    | cons p l ih => intro acc; simp [ih]
  calc humanType (fun _ => false) text
      = text.enum.foldl (fun buf p => buf ++ [p.2]) [] := by
        simp [humanType, humanTypeStep]
    _ = [] ++ text.enum.map Prod.snd := key _ _
    _ = text := by simp [List.enum_map_snd]

/-- C3 (code bug): extractMessageData does not resolve relative timestamps. A time text
    such as "5 minutes ago" contains neither T nor Z, so the code falls into the
    synthesized branch now minus idx minutes, for any Date-parsing oracle; the reading
    the spec describes would give now minus 5 minutes, a different instant. The
    parseTimestamp helper that would implement the relative reading is declared after
    the return statement of the evaluate callback and is never invoked. -/
theorem resolveTimestamp_ignores_relative :
    (∀ (isoParse : String → Option Int) (now : Int),
        resolveTimestamp isoParse now (some "5 minutes ago") 3 = now - 60000 * 3)
    ∧ (∀ now : Int, specRelativeResolve now "5 minutes ago" = some (now - 60000 * 5))
    ∧ (∀ now : Int, now - 60000 * 3 ≠ now - 60000 * 5) := by
  refine ⟨fun isoParse now => ?_, fun now => ?_, fun now => by omega⟩
  · have hT : includesChar "5 minutes ago" 'T' = false := by decide
    simp [resolveTimestamp, hT]
  · have hsplit : splitWords "5 minutes ago".toList
        = ["5".toList, "minutes".toList, "ago".toList] := by decide
    have hd : digitsValue "5".toList = some 5 := by decide
    have hu : specUnitMs (stripPlural "minutes".toList) = some 60000 := by decide
    simp only [specRelativeResolve, hsplit, hd, hu, eq_self_iff_true, if_true]
    norm_num

/-- C2 (code bug): a single bad polling cycle terminates the live watch. The loop body
    and the catch block both reference the identifier stealth, which is not in scope in
    startLiveListener, so the backoff in the catch block itself throws a ReferenceError
    that escapes the loop: with the cancellation callback permanently true, the loop
    ends in a crash during cycle 0 whatever the page operations do, instead of logging,
    backing off 5 to 10 seconds and continuing. -/
theorem startLiveListener_crashes_on_first_error
    (pageOps : Nat → Except String Unit) (fuel : Nat) (hfuel : 1 ≤ fuel) :
    liveListenerLoop startLiveListenerScope (fun _ => true) pageOps fuel 0
      = .crashed 0 (jsRefError "stealth") := by
  obtain ⟨f, rfl⟩ : ∃ f, fuel = f + 1 := ⟨fuel - 1, by omega⟩
  have hs : evalIdent startLiveListenerScope "stealth"
      = .error (jsRefError "stealth") := by
    have : ("stealth" ∈ startLiveListenerScope) = False := by
      simp [startLiveListenerScope, chatModuleScope]
    simp [evalIdent, this]
  cases h : pageOps 0 with
  | ok u =>
    cases u
    simp [liveListenerLoop, liveListenerCycle, h, hs, Except.bind]
  | error e =>
    simp [liveListenerLoop, liveListenerCycle, h, hs, Except.bind]

/-- Witness for the C2 theorem at a concrete run: fuel 3, page operations that never
    throw on their own. -/
theorem startLiveListener_crashes_witness :
    liveListenerLoop startLiveListenerScope (fun _ => true) (fun _ => .ok ()) 3 0
      = .crashed 0 (jsRefError "stealth") :=
  startLiveListener_crashes_on_first_error (fun _ => .ok ()) 3 (by decide)

/-- Unfolding of the loop body on a successful attempt. -/
theorem performLoginGo_success (o : Nat → Option String) (m r fuel attempt : Nat)
    (h : o (attempt + 1) = none) :
    performLoginGo o m r (fuel + 1) attempt = ⟨.success, attempt + 1, []⟩ := by
  simp only [performLoginGo, h]

/-- Unfolding of the loop body on a failed final attempt. -/
theorem performLoginGo_final (o : Nat → Option String) (m r fuel attempt : Nat)
    (msg : String) (h : o (attempt + 1) = some msg) (he : attempt + 1 = m) :
    performLoginGo o m r (fuel + 1) attempt
      = ⟨.failure (loginFailMsg m msg), attempt + 1, []⟩ := by
  simp only [performLoginGo, h]
  rw [if_pos he]

/-- Unfolding of the loop body on a failed non-final attempt: the backoff request
    (r times 2 to the attempt, that plus 1000) is recorded and the loop continues. -/
theorem performLoginGo_retry (o : Nat → Option String) (m r fuel attempt : Nat)
    (msg : String) (h : o (attempt + 1) = some msg) (he : attempt + 1 ≠ m) :
    performLoginGo o m r (fuel + 1) attempt
      = ⟨(performLoginGo o m r fuel (attempt + 1)).result,
         (performLoginGo o m r fuel (attempt + 1)).attemptsMade,
         (r * 2 ^ (attempt + 1 - 1), r * 2 ^ (attempt + 1 - 1) + 1000)
           :: (performLoginGo o m r fuel (attempt + 1)).delayRequests⟩ := by
  simp only [performLoginGo, h]
  rw [if_neg he]

/-- The attempt counter of the performLogin loop never exceeds the loop entry value
    plus the remaining fuel. -/
theorem performLoginGo_attempts_le (outcomes : Nat → Option String)
    (maxRetries retryDelay : Nat) :
    ∀ fuel attempt,
      (performLoginGo outcomes maxRetries retryDelay fuel attempt).attemptsMade
        ≤ attempt + fuel := by
  intro fuel
  induction fuel with
  | zero =>
    intro attempt
    show attempt ≤ attempt + 0
    omega
  | succ f ih =>
    intro attempt
    cases h : outcomes (attempt + 1) with
    | none =>
      rw [performLoginGo_success outcomes maxRetries retryDelay f attempt h]
      show attempt + 1 ≤ attempt + (f + 1)
      omega
    | some msg =>
      by_cases he : attempt + 1 = maxRetries
      · rw [performLoginGo_final outcomes maxRetries retryDelay f attempt msg h he]
        show attempt + 1 ≤ attempt + (f + 1)
        omega
      · rw [performLoginGo_retry outcomes maxRetries retryDelay f attempt msg h he]
        have hrec := ih (attempt + 1)
        show (performLoginGo outcomes maxRetries retryDelay f (attempt + 1)).attemptsMade
          ≤ attempt + (f + 1)
        omega

/-- C7 (confirmed): performLogin makes at most 3 attempts for every outcome sequence;
    with failures on attempts 1 and 2 and success on attempt 3, it succeeds on the 3rd
    attempt and requests exactly the backoff waits (2000, 3000) and (4000, 5000), whose
    minima are base times 2 to the attempt minus 1, so any actual waits meeting those
    minima sum to at least base plus 2 times base; with all 3 attempts failing, it fails
    with the exhaustion error carrying the last underlying message. -/
theorem performLogin_retry_policy
    (oS oF : Nat → Option String) (m1 m2 m3 m4 m5 : String) (t1 t2 : Nat)
    (hS1 : oS 1 = some m1) (hS2 : oS 2 = some m2) (hS3 : oS 3 = none)
    (hF1 : oF 1 = some m3) (hF2 : oF 2 = some m4) (hF3 : oF 3 = some m5)
    (ht1 : 2000 * 2 ^ 0 ≤ t1) (ht2 : 2000 * 2 ^ 1 ≤ t2) :
    (∀ o : Nat → Option String, (performLogin o).attemptsMade ≤ 3)
    ∧ performLogin oS = ⟨.success, 3, [(2000, 3000), (4000, 5000)]⟩
    ∧ 2000 + 2 * 2000 ≤ t1 + t2
    ∧ (performLogin oF).result = .failure (loginFailMsg 3 m5) := by
  refine ⟨fun o => ?_, ?_, by omega, ?_⟩
  · simpa [performLogin] using performLoginGo_attempts_le o 3 2000 3 0
  · show performLoginGo oS 3 2000 (2 + 1) 0 = _
    rw [performLoginGo_retry oS 3 2000 2 0 m1 hS1 (by omega)]
    rw [performLoginGo_retry oS 3 2000 1 1 m2 hS2 (by omega)]
    rw [performLoginGo_success oS 3 2000 0 2 hS3]
    norm_num
  · show (performLoginGo oF 3 2000 (2 + 1) 0).result = _
    rw [performLoginGo_retry oF 3 2000 2 0 m3 hF1 (by omega)]
    rw [performLoginGo_retry oF 3 2000 1 1 m4 hF2 (by omega)]
    rw [performLoginGo_final oF 3 2000 0 2 m5 hF3 (by omega)]

/-- Witness for the C7 theorem at concrete outcome sequences and waits. -/
theorem performLogin_retry_policy_witness :
    performLogin
        (fun n => if n == 1 then some "a" else if n == 2 then some "b" else none)
        = ⟨.success, 3, [(2000, 3000), (4000, 5000)]⟩
    ∧ 2000 + 2 * 2000 ≤ 2000 + 4000
    ∧ (performLogin (fun _ => some "c")).result = .failure (loginFailMsg 3 "c") :=
  (performLogin_retry_policy
    (fun n => if n == 1 then some "a" else if n == 2 then some "b" else none)
    (fun _ => some "c") "a" "b" "c" "c" "c" 2000 4000
    rfl rfl rfl rfl rfl rfl (by norm_num) (by norm_num)).2

/-- The account-on-hold page state used against claim C1: on-hold markup present,
    dashboard markup also present. -/
def onHoldPage : BotPage :=
  { accountIssueText := some "Your account has been put on hold", dashboardPresent := true }

/-- C1 (counterexample): with account-on-hold markup detected and every attempt failing,
    the login flow goes on to make all 3 performLogin attempts, attempt 2 included, and
    surfaces the generic retry-exhaustion error rather than a distinct account-on-hold
    error; so a run that sees that error on attempt 1 does not stop after 1 attempt. -/
theorem botLogin_onHold_counterexample :
    isLoggedIn onHoldPage = false
    ∧ (botLogin onHoldPage true (fun _ => some "Login error detected")).2 = 3
    ∧ (botLogin onHoldPage true (fun _ => some "Login error detected")).1
        = .failure "Login failed after 3 attempts: Login error detected"
    ∧ (botLogin onHoldPage true (fun _ => some "Login error detected")).2 ≠ 1 := by
  decide

/-- C1 (amended): account-on-hold markup with text containing "put on hold" only makes
    isLoggedIn log and return false; the login flow then falls through to performLogin,
    which contains no account-on-hold handling at all, so with failing attempts it
    retries to the full 3 attempts and ends with the generic exhaustion error carrying
    the last underlying message, not a distinct account-on-hold error. -/
theorem botLogin_onHold_no_shortCircuit (p : BotPage) (t : String)
    (outcomes : Nat → Option String) (msgs : Nat → String)
    (hIssue : p.accountIssueText = some t)
    (hHold : containsSubstr t "put on hold" = true)
    (hFail : ∀ n, outcomes n = some (msgs n)) :
    isLoggedIn p = false
    ∧ (botLogin p true outcomes).2 = 3
    ∧ (botLogin p true outcomes).1 = .failure (loginFailMsg 3 (msgs 3)) := by
  have hlog : isLoggedIn p = false := by
    simp [isLoggedIn, hIssue, hHold]
  refine ⟨hlog, ?_, ?_⟩ <;>
    simp [botLogin, hlog, performLogin, performLoginGo, hFail 1, hFail 2, hFail 3]

/-- Witness for the amended C1 theorem at the concrete on-hold page. -/
theorem botLogin_onHold_no_shortCircuit_witness :
    isLoggedIn onHoldPage = false
    ∧ (botLogin onHoldPage true (fun _ => some "Password is incorrect")).2 = 3
    ∧ (botLogin onHoldPage true (fun _ => some "Password is incorrect")).1
        = .failure (loginFailMsg 3 "Password is incorrect") :=
  botLogin_onHold_no_shortCircuit onHoldPage "Your account has been put on hold"
    (fun _ => some "Password is incorrect") (fun _ => "Password is incorrect")
    rfl (by decide) (fun n => rfl)

/-- Unfolding of a scroll iteration that does not break. -/
theorem scrollGo_step (counts : Nat → Nat) (fuel prev sa : Nat)
    (h : ¬(counts sa = prev ∧ 2 < sa)) :
    scrollGo counts (fuel + 1) prev sa = scrollGo counts fuel (counts sa) (sa + 1) := by
  simp only [scrollGo]
  rw [if_neg h]

/-- Unfolding of a scroll iteration that takes the early break. -/
theorem scrollGo_break (counts : Nat → Nat) (fuel prev sa : Nat)
    (h1 : counts sa = prev) (h2 : 2 < sa) :
    scrollGo counts (fuel + 1) prev sa = (sa + 1, true) := by
  simp only [scrollGo]
  rw [if_pos (And.intro h1 h2)]

/-- The scroll loop enters at most fuel further iterations. -/
theorem scrollGo_entries_le (counts : Nat → Nat) :
    ∀ fuel prev sa, (scrollGo counts fuel prev sa).1 ≤ sa + fuel := by
  intro fuel
  induction fuel with
  | zero =>
    intro prev sa
    show sa ≤ sa + 0
    omega
  | succ f ih =>
    intro prev sa
    by_cases h : counts sa = prev ∧ 2 < sa
    · rw [scrollGo_break counts f prev sa h.1 h.2]
      show sa + 1 ≤ sa + (f + 1)
      omega
    · rw [scrollGo_step counts f prev sa h]
      have := ih (counts sa) (sa + 1)
      omega

/-- A run of the scroll loop that ends in the early break contains an iteration whose
    read equals the preceding read (the initial previousMessageCount for the very first
    iteration) past the attempt threshold. -/
theorem scrollGo_broke_exists (counts : Nat → Nat) :
    ∀ fuel prev sa, (scrollGo counts fuel prev sa).2 = true →
      ∃ k, sa ≤ k ∧ k < sa + fuel ∧ 2 < k
        ∧ counts k = (if k = sa then prev else counts (k - 1)) := by
  intro fuel
  induction fuel with
  | zero =>
    intro prev sa h
    exact absurd h (by simp [scrollGo])
  | succ f ih =>
    intro prev sa h
    by_cases hc : counts sa = prev ∧ 2 < sa
    · exact ⟨sa, Nat.le_refl sa, by omega, hc.2, by simp [hc.1]⟩
    · rw [scrollGo_step counts f prev sa hc] at h
      obtain ⟨k, hk1, hk2, hk3, hk4⟩ := ih (counts sa) (sa + 1) h
      refine ⟨k, by omega, by omega, hk3, ?_⟩
      have hne : k ≠ sa := by omega
      rw [if_neg hne]
      rcases eq_or_ne k (sa + 1) with rfl | hne2
      · rw [if_pos rfl] at hk4
        simpa using hk4
      · rw [if_neg hne2] at hk4
        exact hk4

/-- A run of the scroll loop that exits through fuel exhaustion saw no qualifying
    unchanged read at any iteration it entered. -/
theorem scrollGo_no_break (counts : Nat → Nat) :
    ∀ fuel prev sa, (scrollGo counts fuel prev sa).2 = false →
      ∀ k, sa ≤ k → k < sa + fuel →
        ¬(counts k = (if k = sa then prev else counts (k - 1)) ∧ 2 < k) := by
  intro fuel
  induction fuel with
  | zero =>
    intro prev sa _ k hk1 hk2
    exact absurd hk2 (by omega)
  | succ f ih =>
    intro prev sa h
    by_cases hc : counts sa = prev ∧ 2 < sa
    · rw [scrollGo_break counts f prev sa hc.1 hc.2] at h
      exact absurd h (by simp)
    · rw [scrollGo_step counts f prev sa hc] at h
      intro k hk1 hk2
      rcases eq_or_ne k sa with rfl | hne
      · rw [if_pos rfl]
        exact hc
      · have hrec := ih (counts sa) (sa + 1) h k (by omega) (by omega)
        rw [if_neg hne]
        rcases eq_or_ne k (sa + 1) with rfl | hne2
        · rw [if_pos rfl] at hrec
          simpa using hrec
        · rw [if_neg hne2] at hrec
          exact hrec

/-- C6 (amended): the scroll loop enters at most 10 iterations, and exits through the
    early break exactly when some read at scrollAttempt k with 2 < k < 10 equals the
    immediately preceding read: a single unchanged comparison suffices once more than 2
    scroll attempts have happened, rather than the count staying unchanged for more than
    2 consecutive attempts. In the scenario where the count read after 3 scrolls equals
    the read after 2 scrolls, the loop terminates at attempt 4. -/
theorem scrollToLoadHistory_stop_policy (counts : Nat → Nat)
    (hc : counts 3 = counts 2) :
    (∀ c : Nat → Nat, (scrollToLoadHistory c).1 ≤ 10)
    ∧ (∀ c : Nat → Nat,
        ((scrollToLoadHistory c).2 = true ↔ ∃ k, 2 < k ∧ k < 10 ∧ c k = c (k - 1)))
    ∧ scrollToLoadHistory counts = (4, true) := by
  refine ⟨fun c => scrollGo_entries_le c 10 0 0, fun c => ⟨fun h => ?_, fun he => ?_⟩, ?_⟩
  · obtain ⟨k, hk1, hk2, hk3, hk4⟩ := scrollGo_broke_exists c 10 0 0 h
    have hne : k ≠ 0 := by omega
    rw [if_neg hne] at hk4
    exact ⟨k, hk3, by omega, hk4⟩
  · obtain ⟨k, hk1, hk2, hk3⟩ := he
    by_contra hfalse
    have hb : (scrollToLoadHistory c).2 = false := by
      cases hx : (scrollToLoadHistory c).2
      · rfl
      · exact absurd hx hfalse
    have hno := scrollGo_no_break c 10 0 0 hb k (by omega) (by omega)
    rw [if_neg (show k ≠ 0 by omega)] at hno
    exact hno ⟨hk3, hk1⟩
  · show scrollGo counts (9 + 1) 0 0 = (4, true)
    rw [scrollGo_step counts 9 0 0 (fun hx => by omega)]
    rw [scrollGo_step counts 8 (counts 0) 1 (fun hx => by omega)]
    rw [scrollGo_step counts 7 (counts 1) 2 (fun hx => by omega)]
    rw [scrollGo_break counts 6 (counts 2) 3 hc (by omega)]

/-- Witness for the amended C6 theorem with a constant count function. -/
theorem scrollToLoadHistory_stop_policy_witness :
    scrollToLoadHistory (fun _ => 5) = (4, true) :=
  (scrollToLoadHistory_stop_policy (fun _ => 5) rfl).2.2

/-- The count sequence 1, 2, 3, 3, 3, ... used against claim C6: one single unchanged
    comparison right after the attempt threshold. -/
def unevenCounts : Nat → Nat :=
  fun k => match k with
  | 0 => 1
  | 1 => 2
  | _ => 3

/-- C6 (counterexample): on reads 1, 2, 3, 3 the loop breaks early at attempt 4 even
    though the count repeated across only 2 consecutive attempts: no three consecutive
    reads among those the loop performed are equal, so the count was never unchanged for
    more than 2 consecutive attempts, contradicting the exactly-when clause of the
    claim. -/
theorem scrollToLoadHistory_counterexample :
    scrollToLoadHistory unevenCounts = (4, true)
    ∧ ¬(unevenCounts 0 = unevenCounts 1 ∧ unevenCounts 1 = unevenCounts 2)
    ∧ ¬(unevenCounts 1 = unevenCounts 2 ∧ unevenCounts 2 = unevenCounts 3) := by
  decide

/-- Membership in an enumeration determines the position: the index is at least the
    start offset and the list holds the element at the offset-adjusted index. -/
theorem mem_enumFrom_get {α : Type} :
    ∀ (l : List α) (k i : Nat) (a : α),
      (i, a) ∈ l.enumFrom k → k ≤ i ∧ l.get? (i - k) = some a := by
  intro l
  induction l with
  | nil =>
    intro k i a h
    simp [List.enumFrom] at h
  | cons x xs ih =>
    intro k i a h
    simp only [List.enumFrom, List.mem_cons] at h
    rcases h with h | h
    · have hi : i = k := congrArg Prod.fst h
      have ha : a = x := congrArg Prod.snd h
      subst hi
      subst ha
      exact ⟨Nat.le_refl _, by simp⟩
    · obtain ⟨hk, hget⟩ := ih (k + 1) i a h
      refine ⟨by omega, ?_⟩
      rw [show i - k = (i - (k + 1)) + 1 by omega, List.get?_cons_succ]
      exact hget

/-- The indices of an enumeration are strictly increasing along the list. -/
theorem pairwise_enumFrom_lt {α : Type} :
    ∀ (l : List α) (k : Nat),
      (l.enumFrom k).Pairwise (fun p q => p.1 < q.1) := by
  intro l
  induction l with
  | nil =>
    intro k
    simp [List.enumFrom]
  | cons x xs ih =>
    intro k
    simp only [List.enumFrom]
    rw [List.pairwise_cons]
    refine ⟨?_, ih (k + 1)⟩
    intro q hq
    obtain ⟨i, b⟩ := q
    have := (mem_enumFrom_get xs (k + 1) i b hq).1
    show k < i
    omega

/-- findIdx equals a given index holding a satisfying element exactly when every
    earlier element fails the predicate. -/
theorem findIdx_eq_iff_forall {α : Type} (pr : α → Bool) :
    ∀ (l : List α) (i : Nat) (a : α), l.get? i = some a → pr a = true →
      (l.findIdx pr = i ↔ ∀ j b, j < i → l.get? j = some b → pr b = false) := by
  intro l
  induction l with
  | nil =>
    intro i a h
    simp at h
  | cons x xs ih =>
    intro i a hget hpr
    cases i with
    | zero =>
      have hax : x = a := by simpa using hget
      subst hax
      constructor
      · intro _ j b hj _
        exact absurd hj (by omega)
      · intro _
        rw [List.findIdx_cons, hpr]
        rfl
    | succ i' =>
      have hget' : xs.get? i' = some a := by simpa using hget
      have hiff := ih i' a hget' hpr
      by_cases hx : pr x = true
      · constructor
        · intro hfind
          rw [List.findIdx_cons, hx] at hfind
          exact absurd hfind (by simp)
        · intro hall
          have h0 : pr x = false := hall 0 x (by omega) rfl
          rw [h0] at hx
          exact absurd hx (by simp)
      · have hxf : pr x = false := by
          revert hx
          cases pr x <;> simp
        rw [List.findIdx_cons, hxf]
        show (xs.findIdx pr + 1 = i' + 1 ↔ _)
        constructor
        · intro h j b hj hb
          cases j with
          | zero =>
            have : x = b := by simpa using hb
            subst this
            exact hxf
          | succ j' =>
            have hb' : xs.get? j' = some b := by simpa using hb
            exact (hiff.mp (by omega)) j' b (by omega) hb'
        · intro hall
          have : xs.findIdx pr = i' :=
            hiff.mpr (fun j b hj hb => hall (j + 1) b (by omega) (by simpa using hb))
          omega

/-- all over a prefix holds exactly when every element before the cut satisfies the
    predicate. -/
theorem all_take_iff {α : Type} (f : α → Bool) :
    ∀ (l : List α) (i : Nat),
      ((l.take i).all f = true ↔ ∀ j b, j < i → l.get? j = some b → f b = true) := by
  intro l
  induction l with
  | nil =>
    intro i
    constructor
    · intro _ j b _ hb
      simp at hb
    · intro _
      simp
  | cons x xs ih =>
    intro i
    cases i with
    | zero =>
      constructor
      · intro _ j b hj _
        exact absurd hj (by omega)
      · intro _
        simp
    | succ i' =>
      rw [List.take_succ_cons, List.all_cons, Bool.and_eq_true, ih i']
      constructor
      · rintro ⟨hfx, hall⟩ j b hj hb
        cases j with
        | zero =>
          have : x = b := by simpa using hb
          subst this
          exact hfx
        | succ j' =>
          exact hall j' b (by omega) (by simpa using hb)
      · intro hall
        exact ⟨hall 0 x (by omega) rfl,
          fun j b hj hb => hall (j + 1) b (by omega) (by simpa using hb)⟩

/-- Every message duplicates itself: identical text, timestamp distance 0. -/
theorem isDuplicate_self (a : Msg) : isDuplicate a a = true := by
  simp [isDuplicate]

/-- The findIndex-based filter keeps exactly the entries with no earlier duplicate. -/
theorem dedupMessages_keep_first (msgs : List Msg) :
    dedupMessages msgs
      = (msgs.enum.filter
          (fun p => (msgs.take p.1).all (fun m => ! isDuplicate m p.2))).map Prod.snd := by
  unfold dedupMessages
  congr 1
  apply List.filter_congr
  intro p hp
  obtain ⟨i, a⟩ := p
  have hget : msgs.get? i = some a := by
    have h := mem_enumFrom_get msgs 0 i a (by simpa [List.enum] using hp)
    simpa using h.2
  rw [Bool.eq_iff_iff, beq_iff_eq,
    findIdx_eq_iff_forall (fun m => isDuplicate m a) msgs i a hget (isDuplicate_self a),
    all_take_iff (fun m => ! isDuplicate m a) msgs i]
  constructor
  · intro h j b hj hb
    rw [Bool.not_eq_true']
    exact h j b hj hb
  · intro h j b hj hb
    have := h j b hj hb
    rwa [Bool.not_eq_true'] at this

/-- No two retained entries of the duplicate filter are duplicates of each other. -/
theorem dedupMessages_pairwise (msgs : List Msg) :
    (dedupMessages msgs).Pairwise (fun a b => isDuplicate a b = false) := by
  unfold dedupMessages
  rw [List.pairwise_map]
  have henum : (msgs.enum).Pairwise (fun p q => p.1 < q.1) := by
    simpa [List.enum] using pairwise_enumFrom_lt msgs 0
  have hfilter :=
    henum.filter (fun p => msgs.findIdx (fun m => isDuplicate m p.2) == p.1)
  refine List.Pairwise.imp_of_mem ?_ hfilter
  intro p q hp hq hlt
  obtain ⟨hq_mem, hq_keep⟩ := List.mem_filter.mp hq
  obtain ⟨hp_mem, _⟩ := List.mem_filter.mp hp
  have hgq : msgs.get? q.1 = some q.2 := by
    have h := mem_enumFrom_get msgs 0 q.1 q.2 (by simpa [List.enum] using hq_mem)
    simpa using h.2
  have hgp : msgs.get? p.1 = some p.2 := by
    have h := mem_enumFrom_get msgs 0 p.1 p.2 (by simpa [List.enum] using hp_mem)
    simpa using h.2
  have hkeep : msgs.findIdx (fun m => isDuplicate m q.2) = q.1 := by
    simpa [beq_iff_eq] using hq_keep
  exact (findIdx_eq_iff_forall (fun m => isDuplicate m q.2) msgs q.1 q.2 hgq
    (isDuplicate_self q.2)).mp hkeep p.1 p.2 hlt hgp

/-- C4 (confirmed): in every full extraction pass, no two retained messages have
    identical text with timestamps less than 1000 ms apart; and the duplicate filter
    keeps exactly the entries of the (sorted) pass with no earlier duplicate, so within
    each group of mutually close duplicates exactly the first occurrence in iteration
    order survives. -/
theorem extractMessages_dedup_invariant (isoParse : String → Option Int) (now : Int)
    (q : String → List ChatElement) :
    (extractMessages isoParse now q).Pairwise
      (fun a b => ¬(a.text = b.text ∧ (a.timestamp - b.timestamp).natAbs < 1000))
    ∧ ∀ msgs : List Msg,
        dedupMessages msgs
          = (msgs.enum.filter
              (fun p => (msgs.take p.1).all (fun m => ! isDuplicate m p.2))).map
              Prod.snd := by
  constructor
  · have h := dedupMessages_pairwise (sortByTimestamp
      (match firstMatching q messageSelectors with
       | none => []
       | some els => extractPass isoParse now els))
    refine List.Pairwise.imp ?_ h
    intro a b hab hcontra
    obtain ⟨ht, hd⟩ := hcontra
    simp [isDuplicate, ht, hd] at hab
  · exact dedupMessages_keep_first

/-- firstMatching returns the matches of the n-th selector when every earlier selector
    matches nothing and the n-th matches at least one element. -/
theorem firstMatching_eq (q : String → List ChatElement) :
    ∀ (sels : List String) (n : Nat) (hn : n < sels.length),
      (∀ m (hm : m < n), q (sels.get ⟨m, Nat.lt_trans hm hn⟩) = []) →
      q (sels.get ⟨n, hn⟩) ≠ [] →
      firstMatching q sels = some (q (sels.get ⟨n, hn⟩)) := by
  intro sels
  induction sels with
  | nil =>
    intro n hn
    exact absurd hn (by simp)
  | cons s rest ih =>
    intro n hn hbefore hmatch
    cases n with
    | zero =>
      have hm0 : q s ≠ [] := hmatch
      show (if (q s).isEmpty then firstMatching q rest else some (q s)) = some (q s)
      rw [if_neg (fun hemp => hm0 (List.isEmpty_iff.mp hemp))]
    | succ m' =>
      have h0 : q s = [] := hbefore 0 (Nat.succ_pos m')
      show (if (q s).isEmpty then firstMatching q rest else some (q s)) = _
      rw [if_pos (by rw [h0]; rfl)]
      exact ih m' (by simpa using hn)
        (fun m hm => hbefore (m + 1) (by omega)) hmatch

/-- C5 (confirmed): when the n-th candidate selector is the first in the ordered list
    with at least one match, extractMessages builds its whole result from exactly that
    candidate's matches, and the result does not depend on what any later candidate
    would match: any page agreeing with this one on the candidates up to n extracts the
    same messages. -/
theorem extractMessages_first_selector_wins (isoParse : String → Option Int)
    (now : Int) (q : String → List ChatElement) (n : Nat)
    (hn : n < messageSelectors.length)
    (hbefore : ∀ m (hm : m < n), q (messageSelectors.get ⟨m, Nat.lt_trans hm hn⟩) = [])
    (hmatch : q (messageSelectors.get ⟨n, hn⟩) ≠ []) :
    extractMessages isoParse now q
      = dedupMessages (sortByTimestamp
          (extractPass isoParse now (q (messageSelectors.get ⟨n, hn⟩))))
    ∧ ∀ q' : String → List ChatElement,
        (∀ m (hm : m ≤ n),
          q' (messageSelectors.get ⟨m, Nat.lt_of_le_of_lt hm hn⟩)
            = q (messageSelectors.get ⟨m, Nat.lt_of_le_of_lt hm hn⟩)) →
        extractMessages isoParse now q' = extractMessages isoParse now q := by
  have hfm := firstMatching_eq q messageSelectors n hn hbefore hmatch
  constructor
  · show dedupMessages (sortByTimestamp
        (match firstMatching q messageSelectors with
         | none => []
         | some els => extractPass isoParse now els)) = _
    rw [hfm]
  · intro q' hagree
    have hbefore' : ∀ m (hm : m < n),
        q' (messageSelectors.get ⟨m, Nat.lt_trans hm hn⟩) = [] := by
      intro m hm
      rw [hagree m (Nat.le_of_lt hm)]
      exact hbefore m hm
    have hmatch' : q' (messageSelectors.get ⟨n, hn⟩) ≠ [] := by
      rw [hagree n (Nat.le_refl n)]
      exact hmatch
    have hfm' := firstMatching_eq q' messageSelectors n hn hbefore' hmatch'
    show dedupMessages (sortByTimestamp
        (match firstMatching q' messageSelectors with
         | none => []
         | some els => extractPass isoParse now els))
      = dedupMessages (sortByTimestamp
        (match firstMatching q messageSelectors with
         | none => []
         | some els => extractPass isoParse now els))
    rw [hfm, hfm', hagree n (Nat.le_refl n)]

/-- A generic message element: one marker-free message with text "hello". -/
def demoElement : ChatElement :=
  { classes := ["message"]
    ancestorClasses := []
    nestedTextChild := none
    textContent := "hello"
    timeChildText := none
    dataTime := none
    timestampAttr := none
    senderChildText := none
    dataId := none
    domId := none
    className := "message" }

/-- A page on which the first candidate selector matches one element while the later
    generic .message candidate matches five: the running maximum that getMessageCount
    computes then exceeds what the winning candidate extracts. -/
def demoPage : String → List ChatElement :=
  fun s =>
    if s = ".message_container .message" then [demoElement]
    else if s = ".message" then
      [demoElement, demoElement, demoElement, demoElement, demoElement]
    else []

/-- A page on which only the 3rd candidate selector (.text-message) matches anything. -/
def thirdOnlyPage : String → List ChatElement :=
  fun s => if s = ".text-message" then [demoElement] else []

/-- Witness for the C5 theorem: a page matching only the 3rd candidate extracts exactly
    that candidate's matches. -/
theorem extractMessages_first_selector_wins_witness :
    extractMessages (fun _ => none) 0 thirdOnlyPage
      = dedupMessages (sortByTimestamp (extractPass (fun _ => none) 0
          (thirdOnlyPage (messageSelectors.get ⟨2, by decide⟩)))) :=
  (extractMessages_first_selector_wins (fun _ => none) 0 thirdOnlyPage 2 (by decide)
    (fun m hm => by
      have hm01 : m = 0 ∨ m = 1 := by omega
      rcases hm01 with rfl | rfl <;> rfl) (by decide)).1

/-- The initial accumulator never exceeds the running maximum of getMessageCount. -/
theorem foldl_count_ge_init (q : String → List ChatElement) :
    ∀ (l : List String) (a : Nat),
      a ≤ l.foldl (fun count s => if (q s).length > count then (q s).length else count) a := by
  intro l
  induction l with
  | nil =>
    intro a
    exact Nat.le_refl a
  | cons s l ih =>
    intro a
    rw [List.foldl_cons]
    refine Nat.le_trans ?_ (ih _)
    dsimp only
    by_cases h : (q s).length > a
    · rw [if_pos h]
      omega
    · rw [if_neg h]

/-- Every selector's match count is below the running maximum of getMessageCount. -/
theorem foldl_count_ge_mem (q : String → List ChatElement) :
    ∀ (l : List String) (a : Nat) (s : String), s ∈ l →
      (q s).length
        ≤ l.foldl (fun count s => if (q s).length > count then (q s).length else count) a := by
  intro l
  induction l with
  | nil =>
    intro a s hs
    simp at hs
  | cons x l ih =>
    intro a s hs
    rw [List.foldl_cons]
    rcases List.mem_cons.mp hs with rfl | hs2
    · refine Nat.le_trans ?_ (foldl_count_ge_init q l _)
      dsimp only
      by_cases h : (q s).length > a
      · rw [if_pos h]
      · rw [if_neg h]
        omega
    · exact ih _ s hs2

/-- C10 (confirmed): getMessageCount is an upper bound of the match count of every
    candidate selector, in particular of the first-matching selector that
    extractMessages uses; and it can strictly exceed what the same pass extracts, as on
    demoPage, where the count is 5 while the pass extracts 1 message. -/
theorem getMessageCount_dominates_extraction (q : String → List ChatElement) (n : Nat)
    (hn : n < messageSelectors.length)
    (hbefore : ∀ m (hm : m < n), q (messageSelectors.get ⟨m, Nat.lt_trans hm hn⟩) = [])
    (hmatch : q (messageSelectors.get ⟨n, hn⟩) ≠ []) :
    (∀ s ∈ messageSelectors, (q s).length ≤ getMessageCount q)
    ∧ (q (messageSelectors.get ⟨n, hn⟩)).length ≤ getMessageCount q
    ∧ firstMatching q messageSelectors = some (q (messageSelectors.get ⟨n, hn⟩))
    ∧ getMessageCount demoPage = 5
    ∧ (extractMessages (fun _ => none) 0 demoPage).length = 1 := by
  have hmem : messageSelectors.get ⟨n, hn⟩ ∈ messageSelectors :=
    List.get_mem _ _ _
  exact ⟨fun s hs => foldl_count_ge_mem q messageSelectors 0 s hs,
    foldl_count_ge_mem q messageSelectors 0 _ hmem,
    firstMatching_eq q messageSelectors n hn hbefore hmatch,
    by decide, by decide⟩

/-- Witness for the C10 theorem on the concrete demoPage, whose first candidate matches
    one element. -/
theorem getMessageCount_dominates_witness :
    (demoPage (messageSelectors.get ⟨0, by decide⟩)).length ≤ getMessageCount demoPage
    ∧ firstMatching demoPage messageSelectors
        = some (demoPage (messageSelectors.get ⟨0, by decide⟩))
    ∧ getMessageCount demoPage = 5
    ∧ (extractMessages (fun _ => none) 0 demoPage).length = 1 :=
  (getMessageCount_dominates_extraction demoPage 0 (by decide)
    (fun m hm => absurd hm (by omega)) (by decide)).2

/-- Inversion of a successful extractMessageData: the produced message is exactly the
    record the source builds. -/
theorem extractMessageData_eq_some (isoParse : String → Option Int) (now : Int)
    (el : ChatElement) (idx : Nat) (msg : Msg)
    (h : extractMessageData isoParse now el idx = some msg) :
    msg = ⟨messageIdOf el now idx,
           jsTrim (match el.nestedTextChild with
                   | some t => t
                   | none => el.textContent),
           senderOf el,
           resolveTimestamp isoParse now (timeTextOf el) idx,
           if isOwnMessage el then "sent" else "received",
           el.className⟩ := by
  simp only [extractMessageData] at h
  split at h
  · exact absurd h (by simp)
  · exact (Option.some.inj h).symm

/-- C8 (amended): isOwnMessage is true exactly when the element or an ancestor carries
    one of the four outgoing structural markers; no text content is consulted, so there
    is no text-based self-authorship clause. The boolean fully determines type, but it
    determines sender only in the absence of a nonblank sender-name, msg-sender or
    author child: when such a child yields nonempty trimmed text, sender is that display
    text rather than me or other. -/
theorem extract_ownership_policy (isoParse : String → Option Int) (now : Int)
    (el el2 : ChatElement) (idx idx2 : Nat) (msg msg2 : Msg) (t : String)
    (hext : extractMessageData isoParse now el idx = some msg)
    (hblank : ∀ s, el.senderChildText = some s → jsTrim s = "")
    (hext2 : extractMessageData isoParse now el2 idx2 = some msg2)
    (ht : el2.senderChildText = some t)
    (htt : jsTrim t ≠ "") :
    (isOwnMessage el = true
      ↔ ∃ cs ∈ el.classes :: el.ancestorClasses, ∃ m ∈ ownMarkerClasses, m ∈ cs)
    ∧ (msg.type = "sent" ↔ isOwnMessage el = true)
    ∧ (msg.type = "received" ↔ isOwnMessage el = false)
    ∧ (msg.sender = "me" ↔ isOwnMessage el = true)
    ∧ (msg.sender = "other" ↔ isOwnMessage el = false)
    ∧ msg2.sender = jsTrim t := by
  have hmsg := extractMessageData_eq_some isoParse now el idx msg hext
  have hmsg2 := extractMessageData_eq_some isoParse now el2 idx2 msg2 hext2
  subst hmsg
  subst hmsg2
  have hiff : isOwnMessage el = true
      ↔ ∃ cs ∈ el.classes :: el.ancestorClasses, ∃ m ∈ ownMarkerClasses, m ∈ cs := by
    simp only [isOwnMessage, Bool.or_eq_true, List.any_eq_true]
    constructor
    · rintro (⟨m, hm, hmc⟩ | ⟨cs, hcs, m, hm, hmc⟩)
      · exact ⟨el.classes, List.mem_cons_self _ _, m, hm, by simpa using hmc⟩
      · exact ⟨cs, hcs, m, hm, by simpa using hmc⟩
    · rintro ⟨cs, hcs, m, hm, hmc⟩
      exact Or.inr ⟨cs, hcs, m, hm, by simpa using hmc⟩
  have hsender : senderOf el = (if isOwnMessage el then "me" else "other") := by
    unfold senderOf
    cases hsc : el.senderChildText with
    | none => simp [jsOrStr]
    | some s => simp [jsOrStr, hblank s hsc]
  have hsender2 : senderOf el2 = jsTrim t := by
    simp only [senderOf, jsOrStr, ht, Option.map_some']
    rw [if_neg htt]
  refine ⟨hiff, ?_, ?_, ?_, ?_, hsender2⟩
  · show (if isOwnMessage el then "sent" else "received") = "sent"
      ↔ isOwnMessage el = true
    rcases Bool.eq_false_or_eq_true (isOwnMessage el) with hoe | hoe <;>
      rw [hoe] <;> decide
  · show (if isOwnMessage el then "sent" else "received") = "received"
      ↔ isOwnMessage el = false
    rcases Bool.eq_false_or_eq_true (isOwnMessage el) with hoe | hoe <;>
      rw [hoe] <;> decide
  · show senderOf el = "me" ↔ isOwnMessage el = true
    rw [hsender]
    rcases Bool.eq_false_or_eq_true (isOwnMessage el) with hoe | hoe <;>
      rw [hoe] <;> decide
  · show senderOf el = "other" ↔ isOwnMessage el = false
    rw [hsender]
    rcases Bool.eq_false_or_eq_true (isOwnMessage el) with hoe | hoe <;>
      rw [hoe] <;> decide

/-- An own-marked element whose sender-name child shows a display name. -/
def namedOwnElement : ChatElement :=
  { classes := ["own-message"]
    ancestorClasses := []
    nestedTextChild := none
    textContent := "hello there"
    timeChildText := none
    dataTime := none
    timestampAttr := none
    senderChildText := some "Alice"
    dataId := none
    domId := none
    className := "own-message" }

/-- A marker-free element with no sender child. -/
def plainElement : ChatElement :=
  { classes := ["chat-message"]
    ancestorClasses := []
    nestedTextChild := none
    textContent := "hi"
    timeChildText := none
    dataTime := none
    timestampAttr := none
    senderChildText := none
    dataId := none
    domId := none
    className := "chat-message" }

/-- C8 (counterexample): on an element flagged own by marker class whose sender-name
    child reads Alice, extraction sets sender to the display name Alice, not to me, even
    though isOwnMessage is true and type is sent — so isOwnMessage is not the sole
    source of truth for sender. -/
theorem sender_display_name_counterexample :
    isOwnMessage namedOwnElement = true
    ∧ (extractMessageData (fun _ => none) 0 namedOwnElement 0).map Msg.sender
        = some "Alice"
    ∧ (extractMessageData (fun _ => none) 0 namedOwnElement 0).map Msg.type
        = some "sent"
    ∧ some "Alice" ≠ some "me" := by
  decide

/-- Witness for the amended C8 theorem on the two concrete elements. -/
theorem extract_ownership_policy_witness :
    ((Msg.mk "msg_0_0" "hi" "other" 0 "received" "chat-message").type = "sent"
      ↔ isOwnMessage plainElement = true)
    ∧ ((Msg.mk "msg_0_0" "hi" "other" 0 "received" "chat-message").sender = "me"
      ↔ isOwnMessage plainElement = true)
    ∧ (Msg.mk "msg_0_0" "hello there" "Alice" 0 "sent" "own-message").sender
        = jsTrim "Alice" := by
  have h := extract_ownership_policy (fun _ => none) 0 plainElement namedOwnElement 0 0
    (Msg.mk "msg_0_0" "hi" "other" 0 "received" "chat-message")
    (Msg.mk "msg_0_0" "hello there" "Alice" 0 "sent" "own-message") "Alice"
    (by decide) (fun s hs => absurd hs (by simp [plainElement]))
    (by decide) (by decide) (by decide)
  exact ⟨h.2.1, h.2.2.2.1, h.2.2.2.2.2⟩

end Internshala
